import Mathlib

/-!
Verification development for the CalendarAssistant repository
(`calendar_agent.py`, `streamlit_app.py`).

The Python source is shallowly embedded: pure computations become Lean
functions; external effects (HTTP fetches, the Playwright browser, the
Google insert call) become explicit parameters describing their outcomes;
`try`/`except` becomes `Except` / `Option` values; JSON-ish result
dictionaries become association lists over a small value type.
Timestamps are modelled as `Nat` seconds (UTC); `strftime`-style
formatting of dates is abstracted as a `Nat → String` parameter where the
formatted text is never inspected by the code under study.
-/

/-! ## Browser Automation Workflow (`TherapyAppointmentAutomation`) -/

/-- Primitive observable actions of `block_multiple_times`
(`calendar_agent.py` lines 611-662): launching the browser, logging in,
navigating to the schedule view, attempting to block one event, the
return navigation after an event, taking an error screenshot, and
closing the browser (the `finally` clause). -/
inductive BAction where
  | launch
  | login
  | initialNav
  | attemptBlock
  | returnNav
  | screenshot
  | close
deriving DecidableEq, Repr

/-- Outcome of processing one event inside the per-event `try` of
`block_multiple_times` (lines 633-650): `blockResult = some b` means
`_block_time_slot` returned `b`; `none` means it raised.
`returnNavRaises` records whether the return `_navigate_to_availability`
call (line 645) raised; either exception is caught by the per-event
`except` and the loop continues. -/
structure EventRun where
  blockResult : Option Bool
  returnNavRaises : Bool
deriving DecidableEq, Repr

/-- True when `_block_time_slot` returned `True`, i.e. the per-event
blocking sequence completed successfully (line 638 increments the count
exactly in this case). -/
def isBlocked (r : EventRun) : Bool := r.blockResult = some true

/-- Trace of actions of one loop iteration of `block_multiple_times`:
the block attempt, then (unless the attempt raised) the return
navigation, with an error screenshot in the per-event `except` branch. -/
def eventTrace (r : EventRun) : List BAction :=
  match r.blockResult with
  | none => [BAction.attemptBlock, BAction.screenshot]
  | some _ =>
    if r.returnNavRaises then
      [BAction.attemptBlock, BAction.returnNav, BAction.screenshot]
    else
      [BAction.attemptBlock, BAction.returnNav]

/-- The event loop of `block_multiple_times` (lines 631-650): the count
of successfully blocked events together with the emitted action trace.
Exceptions inside an iteration are caught (`except ... continue`), so
the loop always reaches the end of the list. -/
def runEvents : List EventRun → Nat × List BAction
  | [] => (0, [])
  | r :: rs =>
    let rest := runEvents rs
    ((if isBlocked r then 1 else 0) + rest.1, eventTrace r ++ rest.2)

/-- Body of the outer `try` of `block_multiple_times` (lines 624-660):
login (fatal on failure), initial navigation to the schedule view (fatal
on failure), then the per-event loop. A fatal failure takes a screenshot
and re-raises (`Except.error`). -/
def bmtBody (loginRaises initialNavRaises : Bool) (runs : List EventRun) :
    Except Unit Nat × List BAction :=
  if loginRaises then
    (Except.error (), [BAction.launch, BAction.login, BAction.screenshot])
  else if initialNavRaises then
    (Except.error (),
      [BAction.launch, BAction.login, BAction.initialNav, BAction.screenshot])
  else
    let r := runEvents runs
    (Except.ok r.1, [BAction.launch, BAction.login, BAction.initialNav] ++ r.2)

/-- `block_multiple_times` (lines 611-662): the outer `try` body, with
the `finally` clause (line 661-662) appending exactly one browser close
on every exit path, normal or exceptional. -/
def block_multiple_times (loginRaises initialNavRaises : Bool)
    (runs : List EventRun) : Except Unit Nat × List BAction :=
  ((bmtBody loginRaises initialNavRaises runs).1,
    (bmtBody loginRaises initialNavRaises runs).2 ++ [BAction.close])

lemma runEvents_fst (runs : List EventRun) :
    (runEvents runs).1 = runs.countP isBlocked := by
  induction runs with
  | nil => rfl
  | cons r rs ih =>
    simp only [runEvents, List.countP_cons, ih]
    by_cases h : isBlocked r = true <;> simp [h] <;> omega

lemma eventTrace_no_close (r : EventRun) :
    (eventTrace r).count BAction.close = 0 := by
  unfold eventTrace
  rcases r with ⟨_ | b, nav⟩ <;> simp <;> split <;> simp

lemma runEvents_no_close (runs : List EventRun) :
    (runEvents runs).2.count BAction.close = 0 := by
  induction runs with
  | nil => rfl
  | cons r rs ih =>
    simp only [runEvents, List.count_append, ih, eventTrace_no_close]

lemma bmtBody_no_close (l n : Bool) (runs : List EventRun) :
    (bmtBody l n runs).2.count BAction.close = 0 := by
  unfold bmtBody
  split
  · simp [List.count_cons, List.count_nil]
  · split
    · simp [List.count_cons, List.count_nil]
    · simp [List.count_append, runEvents_no_close, List.count_cons, List.count_nil]

/-- C1: for every list of runs, `block_multiple_times` returns the
count of events whose blocking sequence completed successfully out of
the total attempted; per-event failures (a `False` return or an
exception from an iteration) are caught and the loop proceeds, so the
operation raises exactly when login or the initial navigation raises;
and in particular, when exactly one run fails per-event the returned
count is `N - 1`. -/
theorem C1_block_count (l n : Bool) (runs : List EventRun) :
    (block_multiple_times false false runs).1 =
      Except.ok (runs.countP isBlocked) ∧
    ((block_multiple_times l n runs).1 = Except.error () ↔
      (l = true ∨ n = true)) ∧
    (runs.countP (fun r => !(isBlocked r)) = 1 →
      (block_multiple_times false false runs).1 =
        Except.ok (runs.length - 1)) := by
  have hlen : runs.countP isBlocked +
      runs.countP (fun r => !(isBlocked r)) = runs.length := by
    induction runs with
    | nil => rfl
    | cons r rs ih =>
      simp only [List.countP_cons, List.length_cons]
      cases hb : isBlocked r <;> simp [hb] at ih ⊢ <;> omega
  have h1 : (block_multiple_times false false runs).1 =
      Except.ok (runs.countP isBlocked) := by
    simp [block_multiple_times, bmtBody, runEvents_fst]
  refine ⟨h1, ?_, ?_⟩
  · unfold block_multiple_times bmtBody
    cases l <;> cases n <;> simp
  · intro h
    rw [h1]
    have : runs.countP isBlocked = runs.length - 1 := by omega
    rw [this]

/-- Witness for C1 at a concrete batch: three events of which exactly
the second fails per-event; the returned count is 2 = 3 - 1 and the
operation does not raise. -/
theorem C1_block_count_witness :
    (block_multiple_times false false
      [⟨some true, false⟩, ⟨some false, false⟩, ⟨some true, true⟩]).1 =
      Except.ok 2 := by
  have h := C1_block_count false false
    [⟨some true, false⟩, ⟨some false, false⟩, ⟨some true, true⟩]
  exact h.2.2 (by decide)

/-- C2: on every exit path of `block_multiple_times` - normal
completion, a caught per-event failure, or a fatal login/navigation
exception - the browser is closed exactly once, and the close is the
last action before the operation returns or propagates. -/
theorem C2_browser_closed_once (l n : Bool) (runs : List EventRun) :
    (block_multiple_times l n runs).2.count BAction.close = 1 ∧
    (block_multiple_times l n runs).2.getLast? = some BAction.close := by
  constructor
  · simp [block_multiple_times, List.count_append, bmtBody_no_close]
  · simp [block_multiple_times, List.getLast?_append]


/-! ## Date-picker navigation (`_navigate_calendar`, lines 751-776) and
day-cell selection (`_block_time_slot`, lines 724-725) -/

/-- One forward page of the month widget (`th.next`): December rolls to
January of the next year. -/
def nextMonth (c : Int × Nat) : Int × Nat :=
  if c.2 = 12 then (c.1 + 1, 1) else (c.1, c.2 + 1)

/-- One backward page of the month widget (`th.prev`): January rolls to
December of the previous year. -/
def prevMonth (c : Int × Nat) : Int × Nat :=
  if c.2 = 1 then (c.1 - 1, 12) else (c.1, c.2 - 1)

/-- The comparison at line 768: the displayed month/year strictly
precedes the target month/year. -/
def monthBefore (c t : Int × Nat) : Bool :=
  decide (c.1 < t.1) || (decide (c.1 = t.1) && decide (c.2 < t.2))

/-- The paging loop of `_navigate_calendar` (lines 756-773), fuelled by
the `range(24)` bound: returns the final displayed month/year and the
number of next/prev clicks performed.  Stops as soon as the displayed
month/year equals the target; otherwise clicks `next` when the display
precedes the target and `prev` when it follows it. -/
def navCalendar (target : Int × Nat) : Nat → Int × Nat → (Int × Nat) × Nat
  | 0, cur => (cur, 0)
  | fuel + 1, cur =>
    if cur = target then (cur, 0)
    else
      let nxt := if monthBefore cur target then nextMonth cur else prevMonth cur
      let rest := navCalendar target fuel nxt
      (rest.1, rest.2 + 1)

/-- `_navigate_calendar`: the loop with its `max_attempts = 24` bound. -/
def navigate_calendar (target cur : Int × Nat) : (Int × Nat) × Nat :=
  navCalendar target 24 cur

/-- Linear month index used to reason about paging distance. -/
def midx (c : Int × Nat) : Int := 12 * c.1 + c.2

/-- A month/year pair with the month in `1..12` (what `strptime` with
`%B` produces at line 764). -/
def validMY (c : Int × Nat) : Prop := 1 ≤ c.2 ∧ c.2 ≤ 12

/-- A day cell of the date-picker popup: its text content and whether it
carries the `old` / `new` classes marking days of the adjacent month. -/
structure DayCell where
  text : String
  old : Bool
  new : Bool
deriving DecidableEq, Repr

/-- Character-list test: the first list is an initial segment of the
second. -/
def charsStartWith : List Char → List Char → Bool
  | [], _ => true
  | _ :: _, [] => false
  | a :: as, b :: bs => a == b && charsStartWith as bs

/-- Character-list test: the first list occurs contiguously inside the
second. -/
def charsContain : List Char → List Char → Bool
  | pat, [] => charsStartWith pat []
  | pat, b :: rest => charsStartWith pat (b :: rest) || charsContain pat rest

/-- Substring test modelling the `:has-text(...)` selector clause. -/
def containsSub (s pat : String) : Bool := charsContain pat.data s.data

/-- The selector `td.day:not(.old):not(.new):has-text("{day}")` at line
724 as a predicate on day cells. -/
def dayCellMatch (d : Nat) (c : DayCell) : Bool :=
  !c.old && !c.new && containsSub c.text (toString d)

/-- The `page.click(day_selector)` at line 725: Playwright resolves the
selector and clicks the first matching cell, if any. -/
def clickDayCell (d : Nat) (cells : List DayCell) : Option DayCell :=
  cells.find? (dayCellMatch d)

lemma navCalendar_clicks_le (target : Int × Nat) (fuel : Nat) (cur : Int × Nat) :
    (navCalendar target fuel cur).2 ≤ fuel := by
  induction fuel generalizing cur with
  | zero => simp [navCalendar]
  | succ f ih =>
    simp only [navCalendar]
    split
    · simp
    · have := ih (if monthBefore cur target then nextMonth cur else prevMonth cur)
      omega

lemma midx_nextMonth (c : Int × Nat) (h : validMY c) :
    midx (nextMonth c) = midx c + 1 ∧ validMY (nextMonth c) := by
  rcases c with ⟨y, m⟩
  rcases h with ⟨h1, h2⟩
  simp only [nextMonth, midx, validMY] at *
  split_ifs with hm <;> simp_all <;> omega

lemma midx_prevMonth (c : Int × Nat) (h : validMY c) :
    midx (prevMonth c) = midx c - 1 ∧ validMY (prevMonth c) := by
  rcases c with ⟨y, m⟩
  rcases h with ⟨h1, h2⟩
  simp only [prevMonth, midx, validMY] at *
  split_ifs with hm <;> simp_all <;> omega

lemma midx_inj (c t : Int × Nat) (hc : validMY c) (ht : validMY t)
    (h : midx c = midx t) : c = t := by
  rcases c with ⟨y1, m1⟩
  rcases t with ⟨y2, m2⟩
  rcases hc with ⟨a1, a2⟩
  rcases ht with ⟨b1, b2⟩
  simp only [midx] at h
  have hm : m1 = m2 := by omega
  have hy : y1 = y2 := by omega
  simp [hm, hy]

lemma monthBefore_iff (c t : Int × Nat) (hc : validMY c) (ht : validMY t) :
    monthBefore c t = true ↔ midx c < midx t := by
  rcases c with ⟨y1, m1⟩
  rcases t with ⟨y2, m2⟩
  rcases hc with ⟨a1, a2⟩
  rcases ht with ⟨b1, b2⟩
  simp only [monthBefore, midx, Bool.or_eq_true, Bool.and_eq_true, decide_eq_true_eq]
  omega

lemma navCalendar_reaches (target : Int × Nat) (ht : validMY target)
    (fuel : Nat) (cur : Int × Nat) (hc : validMY cur)
    (hd : (midx target - midx cur).natAbs ≤ fuel) :
    navCalendar target fuel cur = (target, (midx target - midx cur).natAbs) := by
  induction fuel generalizing cur with
  | zero =>
    have h0 : midx target = midx cur := by omega
    have hct : cur = target := midx_inj cur target hc ht h0.symm
    subst hct
    simp [navCalendar, h0]
  | succ f ih =>
    by_cases hct : cur = target
    · subst hct
      simp [navCalendar]
    · have hne : midx cur ≠ midx target := fun hmx =>
        hct (midx_inj cur target hc ht hmx)
      simp only [navCalendar, if_neg hct]
      by_cases hlt : midx cur < midx target
      · have hb : monthBefore cur target = true :=
          (monthBefore_iff cur target hc ht).2 hlt
        have hnx := midx_nextMonth cur hc
        have hnx1 := hnx.1
        have hrec := ih (nextMonth cur) hnx.2 (by omega)
        rw [if_pos hb, hrec]
        have harith : (midx target - midx (nextMonth cur)).natAbs + 1 =
            (midx target - midx cur).natAbs := by
          omega
        simp [harith]
      · have hb : ¬(monthBefore cur target = true) := fun hx =>
          hlt ((monthBefore_iff cur target hc ht).1 hx)
        have hpv := midx_prevMonth cur hc
        have hpv1 := hpv.1
        have hrec := ih (prevMonth cur) hpv.2 (by omega)
        rw [if_neg hb, hrec]
        have harith : (midx target - midx (prevMonth cur)).natAbs + 1 =
            (midx target - midx cur).natAbs := by
          omega
        simp [harith]

/-- C6: the date-picker loop performs at most 24 paging steps; it stops
immediately (zero clicks) when the displayed month/year already equals
the target; when both displayed and target month/years are well-formed
and the target is within 24 months, the loop pages in the correct
direction each step (forward when the display precedes the target,
backward when it follows) and therefore lands exactly on the target in
exactly the month-distance number of clicks; and the day-cell click
never selects a cell marked as belonging to the adjacent previous
(`old`) or next (`new`) month. -/
theorem C6_navigate_calendar (target cur : Int × Nat) :
    (navigate_calendar target cur).2 ≤ 24 ∧
    (navigate_calendar target target).2 = 0 ∧
    (validMY target → validMY cur →
      (midx target - midx cur).natAbs ≤ 24 →
      navigate_calendar target cur = (target, (midx target - midx cur).natAbs)) ∧
    (∀ (d : Nat) (cells : List DayCell) (c : DayCell),
      clickDayCell d cells = some c → c.old = false ∧ c.new = false) := by
  refine ⟨navCalendar_clicks_le target 24 cur, ?_, ?_, ?_⟩
  · cases h24 : navigate_calendar target target with
    | mk fin clicks =>
      unfold navigate_calendar navCalendar at h24
      simp at h24
      omega
  · intro ht hc hd
    exact navCalendar_reaches target ht 24 cur hc hd
  · intro d cells c hfind
    have hmatch : dayCellMatch d c = true := List.find?_some hfind
    simp only [dayCellMatch, Bool.and_eq_true, Bool.not_eq_true'] at hmatch
    exact ⟨hmatch.1.1, hmatch.1.2⟩

/-- Witness for C6 at concrete data: navigating from December 2024 to
March 2025 takes exactly 3 forward clicks and lands on the target, and
clicking day 5 among cells where the only `old`-marked cell also has
matching text selects the unmarked cell. -/
theorem C6_navigate_calendar_witness :
    navigate_calendar (2025, 3) (2024, 12) = ((2025, 3), 3) ∧
    clickDayCell 5 [⟨"5", true, false⟩, ⟨"5", false, false⟩] =
      some ⟨"5", false, false⟩ := by
  constructor
  · exact (C6_navigate_calendar (2025, 3) (2024, 12)).2.2.1
      (by constructor <;> norm_num)
      (by constructor <;> norm_num)
      (by norm_num [midx])
  · rfl

/-! ## Calendar Source Adapters

Timestamps are `Nat` seconds (UTC).  The `strftime` renderings
(`start_formatted`, `end_formatted`, and the listing strings) are
abstracted as `Nat → String` parameters: the code under study never
inspects the rendered text. -/

/-- A raw Google `start`/`end` object: all-day (date-only) entries carry
only `date`; timed entries carry `dateTime`. -/
structure GRawTime where
  date : Option Nat
  dateTime : Option Nat
deriving DecidableEq, Repr

/-- A raw event item of the Google `events().list` response, as read by
`GoogleCalendarService.get_events` (lines 424-437): `summary` may be
absent, `start`/`end` objects, and an id. -/
structure GRawEvent where
  summary : Option String
  start : GRawTime
  stop : GRawTime
  id : String
deriving DecidableEq, Repr

/-- A formatted Google event as built at lines 432-437.  `stop` models
the `'end'` key: the code copies `event['end'].get('dateTime')`, which
is absent for a date-only end. -/
structure GoogleEvent where
  summary : String
  start : Nat
  stop : Option Nat
  id : String
deriving DecidableEq, Repr

/-- `GoogleCalendarService.get_events` formatting loop (lines 424-439):
entries whose `start` has no `dateTime` are skipped (line 426-427); the
rest are kept with `summary` defaulting to "No Title". -/
def google_get_events (raws : List GRawEvent) : List GoogleEvent :=
  raws.filterMap fun e =>
    match e.start.dateTime with
    | none => none
    | some s =>
      some { summary := e.summary.getD "No Title", start := s,
             stop := e.stop.dateTime, id := e.id }

/-- A raw event item of the Microsoft Graph response as consumed by
`OutlookCalendarService.get_events` (lines 557-582).  In Graph every
event - all-day ones included - carries `start.dateTime` and
`end.dateTime` (midnight-to-midnight for all-day entries); the
`isAllDay` flag is how the provider marks all-day entries, and the
code's `$select` never requests it nor does the loop read it. -/
structure ORawEvent where
  subject : Option String
  startDateTime : Nat
  endDateTime : Nat
  isAllDay : Bool
  bodyContent : Option String
deriving DecidableEq, Repr

/-- A formatted Outlook event as built at lines 574-582.  `stop` models
the `'end'` key.  `duration_minutes` is `(end - start)` seconds over 60
(events satisfy start ≤ end, so `Nat` subtraction is faithful). -/
structure OutlookEvent where
  subject : String
  start : Nat
  stop : Nat
  start_formatted : String
  end_formatted : String
  duration_minutes : Nat
  body : String
deriving DecidableEq, Repr

/-- The per-event formatting of the Outlook fetch loop (lines 558-582),
with the two `strftime` renderings abstracted as `f1`, `f2`. -/
def formatOutlookEvent (f1 f2 : Nat → String) (e : ORawEvent) : OutlookEvent :=
  { subject := e.subject.getD "No Title"
    start := e.startDateTime
    stop := e.endDateTime
    start_formatted := f1 e.startDateTime
    end_formatted := f2 e.endDateTime
    duration_minutes := (e.endDateTime - e.startDateTime) / 60
    body := e.bodyContent.getD "" }

/-- The formatting loop of `OutlookCalendarService.get_events`: one
output event per fetched item, with no filtering of any kind. -/
def formatOutlookEvents (f1 f2 : Nat → String) (raws : List ORawEvent) :
    List OutlookEvent :=
  raws.map (formatOutlookEvent f1 f2)

/-- Outcome of one HTTP GET against the Graph endpoint (line 551-552):
either a successful response with its items, or an HTTPError with a
status code raised by `raise_for_status`. -/
inductive FetchOutcome where
  | ok (raws : List ORawEvent)
  | httpErr (status : Nat)
deriving DecidableEq, Repr

/-- `OutlookCalendarService.get_events` (lines 529-594) over the stream
of successive HTTP outcomes.  The `except` clause at lines 586-594
handles status 401 by removing the cached token, re-acquiring one, and
calling `self.get_events` again (a recursive retry); any other HTTPError
re-raises.  The result pairs the final outcome (`error none` stands for
an exhausted outcome stream, which the Python cannot observe) with the
number of re-authentications performed. -/
def outlook_get_events (f1 f2 : Nat → String) :
    List FetchOutcome → Except (Option Nat) (List OutlookEvent) × Nat
  | [] => (Except.error none, 0)
  | FetchOutcome.ok raws :: _ => (Except.ok (formatOutlookEvents f1 f2 raws), 0)
  | FetchOutcome.httpErr s :: rest =>
    if s = 401 then
      let r := outlook_get_events f1 f2 rest
      (r.1, r.2 + 1)
    else (Except.error (some s), 0)

/-- Number of consecutive 401 responses at the head of the outcome
stream. -/
def leading401 : List FetchOutcome → Nat
  | FetchOutcome.httpErr 401 :: rest => leading401 rest + 1
  | _ => 0

/-- The outcome stream with its consecutive leading 401 responses
removed. -/
def drop401 : List FetchOutcome → List FetchOutcome
  | FetchOutcome.httpErr 401 :: rest => drop401 rest
  | rs => rs

/-- A single fetch attempt without any retry: what one pass of the `try`
body produces. -/
def fetchOnce (f1 f2 : Nat → String) :
    List FetchOutcome → Except (Option Nat) (List OutlookEvent)
  | [] => Except.error none
  | FetchOutcome.ok raws :: _ => Except.ok (formatOutlookEvents f1 f2 raws)
  | FetchOutcome.httpErr s :: _ =>
    if s = 401 then Except.error none else Except.error (some s)

/-- C4 counterexample: the claim says a second consecutive
authentication failure propagates rather than being retried again.  On
the outcome stream 401, 401, success the code re-authenticates twice
and returns the successful fetch - the second 401 was retried, not
propagated. -/
theorem C4_counterexample :
    outlook_get_events (fun _ => "") (fun _ => "")
      [FetchOutcome.httpErr 401, FetchOutcome.httpErr 401,
        FetchOutcome.ok []] = (Except.ok [], 2) := by
  rfl

/-- C4 amended: on every 401 response the adapter discards its cached
token and re-authenticates, then retries the fetch - with no bound on
the number of retries.  The number of re-authentications equals the
number of consecutive leading 401 responses, the overall result is that
of the first non-401 outcome, and a non-401 HTTP error propagates
immediately without any re-authentication. -/
theorem C4_amended_unbounded_retry (f1 f2 : Nat → String)
    (responses : List FetchOutcome) :
    outlook_get_events f1 f2 responses =
      (fetchOnce f1 f2 (drop401 responses), leading401 responses) ∧
    (∀ s, s ≠ 401 →
      outlook_get_events f1 f2 (FetchOutcome.httpErr s :: responses) =
        (Except.error (some s), 0)) := by
  constructor
  · induction responses with
    | nil => rfl
    | cons r rest ih =>
      cases r with
      | ok raws => rfl
      | httpErr s =>
        by_cases h401 : s = 401
        · subst h401
          simp only [outlook_get_events, if_pos rfl, ih]
          rfl
        · simp only [outlook_get_events, if_neg h401]
          have hdrop : drop401 (FetchOutcome.httpErr s :: rest) =
              FetchOutcome.httpErr s :: rest := by
            unfold drop401
            split
            · rename_i heq
              rw [List.cons.injEq] at heq
              exact absurd (congrArg id heq.1) (by simp [h401])
            · rfl
          have hlead : leading401 (FetchOutcome.httpErr s :: rest) = 0 := by
            unfold leading401
            split
            · rename_i heq
              rw [List.cons.injEq] at heq
              exact absurd (congrArg id heq.1) (by simp [h401])
            · rfl
          rw [hdrop, hlead]
          simp [fetchOnce, if_neg h401]
  · intro s hs
    simp only [outlook_get_events, if_neg hs]

/-- Witness for C4 amended at concrete data: a 500 error at the head
propagates with zero re-authentications. -/
theorem C4_amended_witness :
    outlook_get_events (fun _ => "") (fun _ => "")
      [FetchOutcome.httpErr 500] = (Except.error (some 500), 0) := by
  exact (C4_amended_unbounded_retry (fun _ => "") (fun _ => "") []).2 500
    (by decide)

/-- An all-day provider entry as Microsoft Graph serves it: marked
`isAllDay`, with midnight-to-midnight `dateTime` values. -/
def alldayRaw : ORawEvent :=
  { subject := some "Vacation", startDateTime := 0, endDateTime := 86400,
    isAllDay := true, bodyContent := none }

/-- C5 counterexample: the claim says both adapters filter out all-day
entries.  The Outlook fetch loop performs no such filtering: an all-day
provider entry comes straight through into the returned list. -/
theorem C5_counterexample :
    alldayRaw.isAllDay = true ∧
    (outlook_get_events (fun _ => "t") (fun _ => "t")
        [FetchOutcome.ok [alldayRaw]]).1 =
      Except.ok [{ subject := "Vacation", start := 0, stop := 86400,
                   start_formatted := "t", end_formatted := "t",
                   duration_minutes := 1440, body := "" }] :=
  ⟨rfl, rfl⟩

lemma google_get_events_length (graws : List GRawEvent) :
    (google_get_events graws).length =
      (graws.filter (fun e => e.start.dateTime.isSome)).length := by
  induction graws with
  | nil => rfl
  | cons e rest ih =>
    simp only [google_get_events, List.filterMap_cons, List.filter_cons] at *
    cases h : e.start.dateTime with
    | none => simpa [h] using ih
    | some s => simpa [h] using ih

/-- C5 amended: the Google adapter skips exactly the provider entries
whose start lacks a time-of-day, so (under the provider invariant that
an entry has a timed start iff it has a timed end) every event it
returns has a concrete start and end; the Outlook adapter performs no
all-day filtering at all - it returns one formatted event per fetched
provider entry, all-day entries included. -/
theorem C5_amended_allday_filtering (graws : List GRawEvent)
    (oraws : List ORawEvent) (f1 f2 : Nat → String)
    (hg : ∀ e ∈ graws, e.start.dateTime.isSome ↔ e.stop.dateTime.isSome) :
    (∀ g ∈ google_get_events graws, g.stop.isSome) ∧
    (google_get_events graws).length =
      (graws.filter (fun e => e.start.dateTime.isSome)).length ∧
    (formatOutlookEvents f1 f2 oraws).length = oraws.length := by
  refine ⟨?_, google_get_events_length graws, ?_⟩
  · intro g hgmem
    rw [google_get_events, List.mem_filterMap] at hgmem
    obtain ⟨e, hemem, heq⟩ := hgmem
    cases hst : e.start.dateTime with
    | none => rw [hst] at heq; exact absurd heq (by simp)
    | some s =>
      rw [hst] at heq
      have hstop : e.stop.dateTime.isSome := by
        have := (hg e hemem).1
        rw [hst] at this
        exact this (by simp)
      have : g.stop = e.stop.dateTime := by
        cases heq
        rfl
      rw [this]
      exact hstop
  · simp [formatOutlookEvents]

/-- Witness for C5 amended at concrete data: one timed and one date-only
Google entry satisfying the provider invariant yield exactly one
returned event, whose end is concrete; two Outlook entries (one all-day)
yield two returned events. -/
theorem C5_amended_witness :
    (google_get_events
      [{ summary := some "A", start := ⟨none, some 60⟩,
         stop := ⟨none, some 120⟩, id := "1" },
       { summary := none, start := ⟨some 0, none⟩,
         stop := ⟨some 0, none⟩, id := "2" }]).length = 1 ∧
    (formatOutlookEvents (fun _ => "t") (fun _ => "t")
      [alldayRaw, ⟨some "B", 0, 60, false, some "notes"⟩]).length = 2 := by
  have h := C5_amended_allday_filtering
    [{ summary := some "A", start := ⟨none, some 60⟩,
       stop := ⟨none, some 120⟩, id := "1" },
     { summary := none, start := ⟨some 0, none⟩,
       stop := ⟨some 0, none⟩, id := "2" }]
    [alldayRaw, ⟨some "B", 0, 60, false, some "notes"⟩]
    (fun _ => "t") (fun _ => "t")
    (by intro e he; fin_cases he <;> simp)
  exact ⟨h.2.1, h.2.2⟩

/-! ## Event Reconciler (`sync_outlook_to_google`, lines 319-350) -/

/-- Signature of a destination (Google) event as built at lines 321-322:
the summary paired with the start rounded to the minute (the
`%Y%m%d%H%M` rendering drops seconds). -/
def gsig (g : GoogleEvent) : String × Nat := (g.summary, g.start / 60)

/-- Signature of a source (Outlook) event as built at lines 331-332. -/
def osig (o : OutlookEvent) : String × Nat := (o.subject, o.start / 60)

/-- The Google event created by `add_event` at lines 341-346 for an
inserted Outlook event: summary from the subject, same start/end. -/
def toGoogle (o : OutlookEvent) : GoogleEvent :=
  { summary := o.subject, start := o.start, stop := some o.stop, id := "" }

/-- The dedup-and-insert loop at lines 326-350: `addOk` is the outcome
of each `add_event` call.  Returns (added count, skipped count,
inserted events in input order).  A duplicate signature is skipped; a
successful insert adds the signature to the set so later in-batch
duplicates are skipped; a failed insert counts in neither tally and
does not extend the set. -/
def mergeLoop (addOk : OutlookEvent → Bool) (sigs : List (String × Nat)) :
    List OutlookEvent → Nat × Nat × List OutlookEvent
  | [] => (0, 0, [])
  | e :: es =>
    if osig e ∈ sigs then
      let r := mergeLoop addOk sigs es
      (r.1, r.2.1 + 1, r.2.2)
    else if addOk e then
      let r := mergeLoop addOk (osig e :: sigs) es
      (r.1 + 1, r.2.1, e :: r.2.2)
    else
      let r := mergeLoop addOk sigs es
      (r.1, r.2.1, r.2.2)

/-- Insertion outcome when every `add_event` call succeeds. -/
def alwaysOk : OutlookEvent → Bool := fun _ => true

lemma mergeLoop_inserted_notin (addOk : OutlookEvent → Bool)
    (src : List OutlookEvent) :
    ∀ (sigs : List (String × Nat)) (e : OutlookEvent),
      e ∈ (mergeLoop addOk sigs src).2.2 → osig e ∉ sigs := by
  induction src with
  | nil => intro sigs e he; simp [mergeLoop] at he
  | cons a es ih =>
    intro sigs e he
    simp only [mergeLoop] at he
    by_cases hmem : osig a ∈ sigs
    · rw [if_pos hmem] at he
      exact ih sigs e he
    · rw [if_neg hmem] at he
      by_cases hadd : addOk a = true
      · rw [if_pos hadd] at he
        simp only [List.mem_cons] at he
        rcases he with rfl | he
        · exact hmem
        · have := ih (osig a :: sigs) e he
          intro hx
          exact this (List.mem_cons_of_mem _ hx)
      · rw [if_neg hadd] at he
        exact ih sigs e he

lemma mergeLoop_inserted_nodup (addOk : OutlookEvent → Bool)
    (src : List OutlookEvent) :
    ∀ (sigs : List (String × Nat)),
      ((mergeLoop addOk sigs src).2.2.map osig).Nodup := by
  induction src with
  | nil => intro sigs; simp [mergeLoop]
  | cons a es ih =>
    intro sigs
    simp only [mergeLoop]
    by_cases hmem : osig a ∈ sigs
    · rw [if_pos hmem]; exact ih sigs
    · rw [if_neg hmem]
      by_cases hadd : addOk a = true
      · rw [if_pos hadd]
        simp only [List.map_cons, List.nodup_cons]
        refine ⟨?_, ih (osig a :: sigs)⟩
        intro hx
        rw [List.mem_map] at hx
        obtain ⟨e, he, heq⟩ := hx
        have := mergeLoop_inserted_notin addOk es (osig a :: sigs) e he
        rw [heq] at this
        exact this (List.mem_cons_self _ _)
      · rw [if_neg hadd]; exact ih sigs

lemma mergeLoop_added_eq_inserted (addOk : OutlookEvent → Bool)
    (src : List OutlookEvent) :
    ∀ (sigs : List (String × Nat)),
      (mergeLoop addOk sigs src).1 = (mergeLoop addOk sigs src).2.2.length := by
  induction src with
  | nil => intro sigs; rfl
  | cons a es ih =>
    intro sigs
    simp only [mergeLoop]
    by_cases hmem : osig a ∈ sigs
    · rw [if_pos hmem]; exact ih sigs
    · rw [if_neg hmem]
      by_cases hadd : addOk a = true
      · rw [if_pos hadd]
        simp only [List.length_cons]
        rw [ih (osig a :: sigs)]
      · rw [if_neg hadd]; exact ih sigs

lemma mergeLoop_total (src : List OutlookEvent) :
    ∀ (sigs : List (String × Nat)),
      (mergeLoop alwaysOk sigs src).1 + (mergeLoop alwaysOk sigs src).2.1 =
        src.length := by
  induction src with
  | nil => intro sigs; rfl
  | cons a es ih =>
    intro sigs
    simp only [mergeLoop, List.length_cons]
    by_cases hmem : osig a ∈ sigs
    · rw [if_pos hmem]
      dsimp only
      have := ih sigs
      omega
    · rw [if_neg hmem, if_pos (show alwaysOk a = true from rfl)]
      dsimp only
      have := ih (osig a :: sigs)
      omega

lemma mergeLoop_covers (src : List OutlookEvent) :
    ∀ (sigs : List (String × Nat)) (e : OutlookEvent), e ∈ src →
      osig e ∈ sigs ++ (mergeLoop alwaysOk sigs src).2.2.map osig := by
  induction src with
  | nil => intro sigs e he; simp at he
  | cons a es ih =>
    intro sigs e he
    simp only [mergeLoop]
    by_cases hmem : osig a ∈ sigs
    · rw [if_pos hmem]
      rcases List.mem_cons.1 he with rfl | he2
      · exact List.mem_append_left _ hmem
      · exact ih sigs e he2
    · rw [if_neg hmem, if_pos (show alwaysOk a = true from rfl)]
      dsimp only
      rcases List.mem_cons.1 he with rfl | he2
      · simp
      · have := ih (osig a :: sigs) e he2
        simp only [List.cons_append, List.mem_cons] at this
        rcases this with heq | hin
        · simp [heq]
        · simp only [List.map_cons, List.mem_append, List.mem_cons]
          rcases List.mem_append.1 hin with h1 | h2
          · exact Or.inl h1
          · exact Or.inr (Or.inr h2)

lemma mergeLoop_all_skipped (addOk : OutlookEvent → Bool)
    (src : List OutlookEvent) :
    ∀ (sigs : List (String × Nat)), (∀ e ∈ src, osig e ∈ sigs) →
      mergeLoop addOk sigs src = (0, src.length, []) := by
  induction src with
  | nil => intro sigs _; rfl
  | cons a es ih =>
    intro sigs hall
    have hmem : osig a ∈ sigs := hall a (List.mem_cons_self _ _)
    simp only [mergeLoop, if_pos hmem, List.length_cons]
    rw [ih sigs (fun e he => hall e (List.mem_cons_of_mem _ he))]

lemma gsig_toGoogle (o : OutlookEvent) : gsig (toGoogle o) = osig o := rfl

/-- C3: the Outlook-to-Google merge skips exactly the source events
whose signature (title, start rounded to the minute) already occurs,
extends the signature set on each insertion so later in-batch duplicates
are also skipped (the inserted signatures are pairwise distinct and
disjoint from the destination set), added + skipped accounts for every
source event, and rerunning the merge on unchanged source data against
the now-populated destination inserts zero events and skips them all. -/
theorem C3_merge_dedup_idempotent (gdest : List GoogleEvent)
    (src : List OutlookEvent) :
    (mergeLoop alwaysOk (gdest.map gsig) src).1 =
      (mergeLoop alwaysOk (gdest.map gsig) src).2.2.length ∧
    (mergeLoop alwaysOk (gdest.map gsig) src).1 +
      (mergeLoop alwaysOk (gdest.map gsig) src).2.1 = src.length ∧
    (∀ e ∈ (mergeLoop alwaysOk (gdest.map gsig) src).2.2,
      osig e ∉ gdest.map gsig) ∧
    ((mergeLoop alwaysOk (gdest.map gsig) src).2.2.map osig).Nodup ∧
    mergeLoop alwaysOk
      ((gdest ++ (mergeLoop alwaysOk (gdest.map gsig) src).2.2.map toGoogle).map
        gsig) src = (0, src.length, []) := by
  refine ⟨mergeLoop_added_eq_inserted alwaysOk src (gdest.map gsig),
    mergeLoop_total src (gdest.map gsig),
    fun e he => mergeLoop_inserted_notin alwaysOk src (gdest.map gsig) e he,
    mergeLoop_inserted_nodup alwaysOk src (gdest.map gsig), ?_⟩
  have hset : (gdest ++
      (mergeLoop alwaysOk (gdest.map gsig) src).2.2.map toGoogle).map gsig =
      gdest.map gsig ++
        (mergeLoop alwaysOk (gdest.map gsig) src).2.2.map osig := by
    rw [List.map_append, List.map_map]
    congr 1
  rw [hset]
  apply mergeLoop_all_skipped
  intro e he
  exact mergeLoop_covers src (gdest.map gsig) e he

/-- Witness for C3 at concrete data (the end-to-end scenario of the
spec): one source event against an empty destination is inserted with
nothing skipped, and the rerun against the populated destination inserts
nothing and skips it. -/
theorem C3_merge_dedup_idempotent_witness :
    (mergeLoop alwaysOk (([] : List GoogleEvent).map gsig)
      [⟨"Intake", 3600, 7200, "s", "e", 60, ""⟩]).2.2 =
      [⟨"Intake", 3600, 7200, "s", "e", 60, ""⟩] ∧
    mergeLoop alwaysOk
      (([] ++ (mergeLoop alwaysOk (([] : List GoogleEvent).map gsig)
        [⟨"Intake", 3600, 7200, "s", "e", 60, ""⟩]).2.2.map toGoogle).map gsig)
      [⟨"Intake", 3600, 7200, "s", "e", 60, ""⟩] = (0, 1, []) := by
  have h := C3_merge_dedup_idempotent ([] : List GoogleEvent)
    [⟨"Intake", 3600, 7200, "s", "e", 60, ""⟩]
  exact ⟨rfl, h.2.2.2.2⟩

/-! ## CalendarSyncAgent tool operations (lines 203-368)

Each operation wraps its whole body in `try`/`except Exception` and
returns a result dictionary; the underlying fetches and the automation
run are passed in as `Except`-valued outcomes (the exception message as
the error).  The Bool paired with the two sync operations records
whether the downstream stage (browser automation / Google duplicate
query) was reached - used to state the empty-fetch short-circuit. -/

/-- JSON-like values of the returned result dictionaries. -/
inductive JVal where
  | jbool : Bool → JVal
  | jstr : String → JVal
  | jnum : Nat → JVal
  | jlist : List JVal → JVal
  | jobj : List (String × JVal) → JVal

/-- `sync_calendars` (lines 203-235): fetch Google events (any raised
exception is caught into the failure dictionary); an empty list
short-circuits with success before the automation is constructed;
otherwise the automation outcome `blockRun` (construction plus
`block_multiple_times`, which may raise fatally) yields the success or
failure dictionary.  The Bool records whether the automation stage was
reached. -/
def sync_calendars (fetch : Except String (List GoogleEvent))
    (blockRun : Except String Nat) : List (String × JVal) × Bool :=
  match fetch with
  | Except.error msg =>
    ([("success", JVal.jbool false),
      ("message", JVal.jstr ("Error syncing calendars: " ++ msg)),
      ("events_synced", JVal.jnum 0)], false)
  | Except.ok events =>
    if events.isEmpty then
      ([("success", JVal.jbool true),
        ("message", JVal.jstr "No events found to sync"),
        ("events_synced", JVal.jnum 0)], false)
    else
      match blockRun with
      | Except.error msg =>
        ([("success", JVal.jbool false),
          ("message", JVal.jstr ("Error syncing calendars: " ++ msg)),
          ("events_synced", JVal.jnum 0)], true)
      | Except.ok cnt =>
        ([("success", JVal.jbool true),
          ("message", JVal.jstr ("Successfully synced " ++ toString cnt ++
            " out of " ++ toString events.length ++
            " events from Google to TherapyAppointment")),
          ("events_synced", JVal.jnum cnt),
          ("total_events", JVal.jnum events.length)], true)

/-- One listing entry of `get_upcoming_events` (lines 243-252): parsing
the `'end'` value raises when it is absent (a date-only end), which the
surrounding `except` turns into the failure dictionary. -/
def gEventEntry (f1 f2 : Nat → String) (e : GoogleEvent) : Option JVal :=
  match e.stop with
  | none => none
  | some en =>
    some (JVal.jobj
      [("summary", JVal.jstr e.summary),
       ("start", JVal.jstr (f1 e.start)),
       ("end", JVal.jstr (f2 en)),
       ("duration", JVal.jstr (toString ((en - e.start) / 60) ++ " minutes"))])

/-- The listing loop of `get_upcoming_events`: build entries until a
parse failure aborts the whole listing. -/
def gEntries (f1 f2 : Nat → String) : List GoogleEvent → Option (List JVal)
  | [] => some []
  | e :: es =>
    match gEventEntry f1 f2 e with
    | none => none
    | some v =>
      match gEntries f1 f2 es with
      | none => none
      | some vs => some (v :: vs)

/-- `get_upcoming_events` (lines 237-267). -/
def get_upcoming_events (f1 f2 : Nat → String) (days_ahead : Nat)
    (fetch : Except String (List GoogleEvent)) : List (String × JVal) :=
  match fetch with
  | Except.error msg =>
    [("success", JVal.jbool false),
     ("message", JVal.jstr ("Error getting Google Calendar events: " ++ msg)),
     ("events", JVal.jlist []), ("count", JVal.jnum 0)]
  | Except.ok evs =>
    match gEntries f1 f2 evs with
    | none =>
      [("success", JVal.jbool false),
       ("message", JVal.jstr "Error getting Google Calendar events: bad time"),
       ("events", JVal.jlist []), ("count", JVal.jnum 0)]
    | some entries =>
      [("success", JVal.jbool true),
       ("source", JVal.jstr "Google Calendar"),
       ("events", JVal.jlist entries),
       ("count", JVal.jnum entries.length),
       ("period", JVal.jstr ("next " ++ toString days_ahead ++ " days"))]

/-- `get_outlook_events` (lines 269-296): the listing entries reuse the
pre-rendered fields of the fetched events, so only the fetch itself can
fail. -/
def get_outlook_events (days_ahead : Nat)
    (fetch : Except String (List OutlookEvent)) : List (String × JVal) :=
  match fetch with
  | Except.error msg =>
    [("success", JVal.jbool false),
     ("message", JVal.jstr ("Error getting Outlook events: " ++ msg)),
     ("events", JVal.jlist []), ("count", JVal.jnum 0)]
  | Except.ok evs =>
    [("success", JVal.jbool true),
     ("source", JVal.jstr "Outlook Calendar"),
     ("events", JVal.jlist (evs.map fun e => JVal.jobj
       [("summary", JVal.jstr e.subject),
        ("start", JVal.jstr e.start_formatted),
        ("end", JVal.jstr e.end_formatted),
        ("duration", JVal.jstr (toString e.duration_minutes ++ " minutes"))])),
     ("count", JVal.jnum evs.length),
     ("period", JVal.jstr ("next " ++ toString days_ahead ++ " days"))]

/-- The failure dictionary of `sync_outlook_to_google` (lines 364-368). -/
def o2gErrDict (msg : String) : List (String × JVal) :=
  [("success", JVal.jbool false),
   ("message", JVal.jstr ("Error syncing Outlook to Google: " ++ msg)),
   ("events_synced", JVal.jnum 0)]

/-- `sync_outlook_to_google` (lines 298-368): fetch Outlook events (a
raised exception is caught into the failure dictionary); an empty list
short-circuits with success before Google is queried; otherwise the
Google fetch feeds the dedup-and-insert loop.  The Bool records whether
the Google duplicate query was reached. -/
def sync_outlook_to_google (ofetch : Except String (List OutlookEvent))
    (gfetch : Except String (List GoogleEvent))
    (addOk : OutlookEvent → Bool) : List (String × JVal) × Bool :=
  match ofetch with
  | Except.error msg => (o2gErrDict msg, false)
  | Except.ok [] =>
    ([("success", JVal.jbool true),
      ("message", JVal.jstr "No Outlook events found to sync"),
      ("events_synced", JVal.jnum 0),
      ("events_skipped", JVal.jnum 0)], false)
  | Except.ok (o :: os) =>
    match gfetch with
    | Except.error msg => (o2gErrDict msg, true)
    | Except.ok gevents =>
      let r := mergeLoop addOk (gevents.map gsig) (o :: os)
      ([("success", JVal.jbool true),
        ("message", JVal.jstr ("Synced " ++ toString r.1 ++
          " events from Outlook to Google Calendar, skipped " ++
          toString r.2.1 ++ " duplicates")),
        ("events_synced", JVal.jnum r.1),
        ("events_skipped", JVal.jnum r.2.1),
        ("total_events", JVal.jnum (o :: os).length)], true)

/-- C9: each public tool operation is total over all outcomes of its
underlying effects (the `try`/`except Exception` wrapper converts any
internal exception into a returned failure dictionary), every result
carries a boolean `success` entry, and when the underlying fetch raised
the result has `success = false` together with a human-readable
`message` entry. -/
theorem C9_tools_never_raise (f1 f2 : Nat → String) (d : Nat)
    (gf : Except String (List GoogleEvent))
    (of : Except String (List OutlookEvent))
    (br : Except String Nat) (addOk : OutlookEvent → Bool) :
    (∃ b, (sync_calendars gf br).1.lookup "success" = some (JVal.jbool b)) ∧
    (∃ b, (get_upcoming_events f1 f2 d gf).lookup "success" =
      some (JVal.jbool b)) ∧
    (∃ b, (get_outlook_events d of).lookup "success" = some (JVal.jbool b)) ∧
    (∃ b, (sync_outlook_to_google of gf addOk).1.lookup "success" =
      some (JVal.jbool b)) ∧
    (∀ m, gf = Except.error m →
      (sync_calendars gf br).1.lookup "success" = some (JVal.jbool false) ∧
      (∃ s, (sync_calendars gf br).1.lookup "message" = some (JVal.jstr s)) ∧
      (get_upcoming_events f1 f2 d gf).lookup "success" =
        some (JVal.jbool false) ∧
      (∃ s, (get_upcoming_events f1 f2 d gf).lookup "message" =
        some (JVal.jstr s))) ∧
    (∀ m, of = Except.error m →
      (get_outlook_events d of).lookup "success" = some (JVal.jbool false) ∧
      (∃ s, (get_outlook_events d of).lookup "message" =
        some (JVal.jstr s)) ∧
      (sync_outlook_to_google of gf addOk).1.lookup "success" =
        some (JVal.jbool false) ∧
      (∃ s, (sync_outlook_to_google of gf addOk).1.lookup "message" =
        some (JVal.jstr s))) := by
  refine ⟨?_, ?_, ?_, ?_, ?_, ?_⟩
  · cases gf with
    | error m => exact ⟨false, rfl⟩
    | ok evs =>
      by_cases he : evs.isEmpty
      · exact ⟨true, by simp [sync_calendars, he]⟩
      · cases br with
        | error m => exact ⟨false, by simp [sync_calendars, he]⟩
        | ok cnt => exact ⟨true, by simp [sync_calendars, he]⟩
  · cases gf with
    | error m => exact ⟨false, rfl⟩
    | ok evs =>
      cases hm : gEntries f1 f2 evs with
      | none => exact ⟨false, by simp [get_upcoming_events, hm]⟩
      | some entries => exact ⟨true, by simp [get_upcoming_events, hm]⟩
  · cases of with
    | error m => exact ⟨false, rfl⟩
    | ok evs => exact ⟨true, rfl⟩
  · cases of with
    | error m => exact ⟨false, rfl⟩
    | ok evs =>
      cases evs with
      | nil => exact ⟨true, rfl⟩
      | cons o os =>
        cases gf with
        | error m => exact ⟨false, rfl⟩
        | ok gevents => exact ⟨true, rfl⟩
  · rintro m rfl
    exact ⟨rfl, ⟨_, rfl⟩, rfl, ⟨_, rfl⟩⟩
  · rintro m rfl
    exact ⟨rfl, ⟨_, rfl⟩, rfl, ⟨_, rfl⟩⟩

/-- Witness for C9 at concrete outcomes: both fetches failed; all four
operations still return dictionaries, with failure flags and messages
where required. -/
theorem C9_tools_never_raise_witness :
    (sync_calendars (Except.error "boom") (Except.ok 0)).1.lookup "success" =
      some (JVal.jbool false) ∧
    (get_upcoming_events (fun _ => "") (fun _ => "") 7
      (Except.error "boom")).lookup "success" = some (JVal.jbool false) ∧
    (get_outlook_events 7 (Except.error "boom")).lookup "success" =
      some (JVal.jbool false) ∧
    (sync_outlook_to_google (Except.error "boom") (Except.error "boom")
      alwaysOk).1.lookup "success" = some (JVal.jbool false) := by
  have h := C9_tools_never_raise (fun _ => "") (fun _ => "") 7
    (Except.error "boom") (Except.error "boom") (Except.ok 0) alwaysOk
  have h2 := C9_tools_never_raise (fun _ => "") (fun _ => "") 7
    (Except.error "boom") (Except.error "boom") (Except.ok 0) alwaysOk
  exact ⟨(h.2.2.2.2.1 "boom" rfl).1, (h.2.2.2.2.1 "boom" rfl).2.2.1,
    (h2.2.2.2.2.2 "boom" rfl).1, (h2.2.2.2.2.2 "boom" rfl).2.2.1⟩

/-- C10: when the fetched source list is empty, both sync operations
short-circuit with a success dictionary reporting zero events synced
(and zero skipped for the Outlook-to-Google sync) and the downstream
stage is never reached: no automation/browser session is constructed
and the Google duplicate query is not performed. -/
theorem C10_empty_fetch_short_circuit (br : Except String Nat)
    (gf : Except String (List GoogleEvent)) (addOk : OutlookEvent → Bool) :
    sync_calendars (Except.ok []) br =
      ([("success", JVal.jbool true),
        ("message", JVal.jstr "No events found to sync"),
        ("events_synced", JVal.jnum 0)], false) ∧
    sync_outlook_to_google (Except.ok []) gf addOk =
      ([("success", JVal.jbool true),
        ("message", JVal.jstr "No Outlook events found to sync"),
        ("events_synced", JVal.jnum 0),
        ("events_skipped", JVal.jnum 0)], false) := by
  exact ⟨rfl, rfl⟩

/-! ## Human Approval Gate (`CalendarSyncAgentWithHITL`)

`streamlit_app.py` imports `CalendarSyncAgentWithHITL` from
`calendar_agent`, but that class is not present in the repository
sources; only its caller is.  Its approval-gate behaviour is therefore
modelled from the specification. -/

/-- Modelled from the spec: the Approval Gate state
(`CalendarSyncAgentWithHITL`, imported at `streamlit_app.py` line 9 but
absent from the sources).  `pending = some batch` is the
`AwaitingSelection` state holding the stored batch; `pending = none` is
`Idle`. -/
structure HITLGate (α : Type) where
  pending : Option (List α)
deriving DecidableEq, Repr

/-- Modelled from the spec: `requestApproval` stores the batch (silently
overwriting any pending one) and moves to `AwaitingSelection`. -/
def requestApproval {α : Type} (batch : List α) (_ : HITLGate α) : HITLGate α :=
  ⟨some batch⟩

/-- Case-insensitive character-list comparison against an all-lowercase
keyword: a character matches a lowercase letter when it is that letter
in either case. -/
def charsEqCI : List Char → List Char → Bool
  | [], [] => true
  | c :: cs, k :: ks =>
    (c.toNat == k.toNat || c.toNat + 32 == k.toNat) && charsEqCI cs ks
  | _, _ => false

/-- Split a character list on commas. -/
def splitComma : List Char → List (List Char)
  | [] => [[]]
  | c :: cs =>
    if c == ',' then [] :: splitComma cs
    else
      match splitComma cs with
      | [] => [[c]]
      | g :: gs => (c :: g) :: gs

/-- Parse a token of decimal digits as a natural number; any non-digit
character (or an empty token) fails the parse. -/
def parseDigits : List Char → Nat → Option Nat
  | [], acc => some acc
  | c :: cs, acc =>
    if '0' ≤ c ∧ c ≤ '9' then parseDigits cs (acc * 10 + (c.toNat - 48))
    else none

/-- Parse one comma-separated token as a 1-based position. -/
def parseTok (cs : List Char) : Option Nat :=
  match cs with
  | [] => none
  | _ => parseDigits cs 0

/-- Modelled from the spec: the selection computed by
`resolve(selectionText)` from the stored batch - case-insensitive
keywords `none`/`cancel`/`skip` give the empty selection, `all` gives
the entire stored batch, and any other input is split on commas with
each token parsed as a 1-based position: non-numeric and out-of-range
tokens are silently dropped, so any unrecognized input fails closed to
the empty selection. -/
def resolveSelection {α : Type} (batch : List α) (selectionText : String) :
    List α :=
  let cs := selectionText.data
  if charsEqCI cs "none".data || charsEqCI cs "cancel".data ||
      charsEqCI cs "skip".data then []
  else if charsEqCI cs "all".data then batch
  else
    ((splitComma cs).filterMap parseTok).filterMap
      (fun i => if 1 ≤ i then batch.get? (i - 1) else none)

/-- Modelled from the spec: `resolve` applies the selection to the
stored batch and always transitions back to `Idle`, clearing the
pending state, whatever the input was. -/
def resolve {α : Type} (g : HITLGate α) (selectionText : String) :
    List α × HITLGate α :=
  (resolveSelection (g.pending.getD []) selectionText, ⟨none⟩)

/-- C7: `resolve("all")` (case-insensitive) returns the entire stored
batch; `none`/`cancel`/`skip` (case-insensitive) return the empty
selection; comma-separated 1-based positions return the corresponding
batch items with out-of-range and non-numeric tokens silently dropped;
unrecognized input fails closed to the empty selection; and every
resolution clears the pending state rather than raising. -/
theorem C7_resolve_selection {α : Type} (batch : List α) (a b c : α)
    (g : HITLGate α) (s : String) :
    (resolve (⟨some batch⟩ : HITLGate α) "all").1 = batch ∧
    (resolve (⟨some batch⟩ : HITLGate α) "ALL").1 = batch ∧
    (resolve (⟨some batch⟩ : HITLGate α) "none").1 = [] ∧
    (resolve (⟨some batch⟩ : HITLGate α) "Cancel").1 = [] ∧
    (resolve (⟨some batch⟩ : HITLGate α) "SKIP").1 = [] ∧
    (resolve (⟨some [a, b, c]⟩ : HITLGate α) "1,3").1 = [a, c] ∧
    (resolve (⟨some [a, b, c]⟩ : HITLGate α) "5").1 = [] ∧
    (resolve (⟨some [a, b, c]⟩ : HITLGate α) "1,5,x,2").1 = [a, b] ∧
    (resolve (⟨some batch⟩ : HITLGate α) "abc").1 = [] ∧
    (resolve g s).2 = (⟨none⟩ : HITLGate α) :=
  ⟨rfl, rfl, rfl, rfl, rfl, rfl, rfl, rfl, rfl, rfl⟩

/-! ## Form fills of `_block_time_slot` (lines 695-749) -/

/-- Two-digit zero-padded rendering of a field of a `%H:%M` time. -/
def pad2 (n : Nat) : String := if n < 10 then "0" ++ toString n else toString n

/-- The `%H:%M` rendering of a timestamp's time of day (lines 728-729). -/
def hhmm (t : Nat) : String :=
  pad2 ((t / 3600) % 24) ++ ":" ++ pad2 ((t % 3600) / 60)

/-- The text fields filled by `_block_time_slot` (lines 732-737), as
selector/value pairs.  Parsing the event's `'end'` happens at line 698
before the `try`, so a missing end raises out of the helper (`none`);
otherwise the start/end time fields receive the `%H:%M` renderings and
the name field receives the fixed literal `Unavailable` - never the
event's own summary. -/
def blockFormFills (e : GoogleEvent) : Option (List (String × String)) :=
  match e.stop with
  | none => none
  | some en =>
    some [("#event_starttime", hhmm e.start),
          ("#event_endtime", hhmm en),
          ("#calendar_event_name", "Unavailable")]

/-- C8: the title written to the scheduling site's name field is the
fixed literal `Unavailable`, independent of the event's own content:
any two events with equal start/end produce identical form fills (they
may differ arbitrarily in summary and id), and whenever the fills are
produced the name field's value is `Unavailable`. -/
theorem C8_fixed_title (e1 e2 : GoogleEvent)
    (hs : e1.start = e2.start) (he : e1.stop = e2.stop) :
    blockFormFills e1 = blockFormFills e2 ∧
    (∀ l, blockFormFills e1 = some l →
      l.lookup "#calendar_event_name" = some "Unavailable") := by
  constructor
  · unfold blockFormFills
    rw [hs, he]
  · intro l hl
    unfold blockFormFills at hl
    cases hstop : e1.stop with
    | none => rw [hstop] at hl; exact absurd hl (by simp)
    | some en =>
      rw [hstop] at hl
      have : l = [("#event_starttime", hhmm e1.start),
          ("#event_endtime", hhmm en),
          ("#calendar_event_name", "Unavailable")] := by
        cases hl
        rfl
      rw [this]
      rfl

/-- Witness for C8 at concrete events: two events with the same times
but different titles produce identical fills, whose name-field value is
the literal `Unavailable`. -/
theorem C8_fixed_title_witness :
    blockFormFills ⟨"Therapy with Alice", 3600, some 7200, "1"⟩ =
      blockFormFills ⟨"Dentist", 3600, some 7200, "2"⟩ ∧
    (blockFormFills ⟨"Therapy with Alice", 3600, some 7200, "1"⟩).getD [] =
      [("#event_starttime", "01:00"), ("#event_endtime", "02:00"),
       ("#calendar_event_name", "Unavailable")] := by
  have h := C8_fixed_title ⟨"Therapy with Alice", 3600, some 7200, "1"⟩
    ⟨"Dentist", 3600, some 7200, "2"⟩ rfl rfl
  exact ⟨h.1, rfl⟩
